import Mathlib

/-!
Shallow embedding of the ascendo multi-agent ICP scoring pipeline.

Source files embedded here:
- src/config.py              (ICP_CRITERIA, ICP_THRESHOLDS)
- src/models/schemas.py      (ICPResult, ConferenceData, AgentContext, AgentMessage)
- src/agents/icp_validator_agent.py
    (_validate_company, _rule_based_validation, _handle_dispute, _update_with_enrichment)
- src/agents/quality_agent.py (_review_score_data)
- src/communication/context.py
    (add_icp_result, get_companies, create_checkpoint, restore_checkpoint)
- src/communication/message_bus.py (subscribe, send, get_pending_messages)

Python integers are modelled as `Int`, optional values as `Option`, dict
`.get` access as `Option.getD`, and Python truthiness explicitly where the
code relies on it.  Oracle (Gemini) calls are external collaborators and are
modelled as an `Option (Except Unit _)` input: `none` = no oracle configured,
`some (.error _)` = the call raised, `some (.ok r)` = the call returned `r`.
-/

namespace Ascendo

/-- Python `needle in haystack` for strings: substring containment.
Note that in Python the empty string is a substring of every string, which
the list-infix relation reproduces (`[]` is an infix of every list). -/
def substrOf (needle haystack : String) : Bool :=
  decide (needle.data <:+: haystack.data)

/-- Python `s.lower()`.  All strings in the embedded configuration and data
are ASCII, where Python lowering agrees with per-character `Char.toLower`;
mapping over the character list keeps the function kernel-reducible. -/
def pyLower (s : String) : String :=
  ⟨s.data.map Char.toLower⟩

/-- Python truthiness of an `Optional[int]`: `None` and `0` are falsy. -/
def truthyInt : Option Int → Bool
  | some n => n != 0
  | none => false

/-- Python `a or b` on two `Optional[int]` values: `a` if truthy, else `b`. -/
def pyOrInt (a b : Option Int) : Option Int :=
  if truthyInt a then a else b

/-! ## src/config.py -/

/-- ICP_CRITERIA["target_industries"]. -/
def target_industries : List String :=
  ["Manufacturing", "Industrial Equipment", "Medical Devices",
   "Healthcare Technology", "Field Service", "HVAC", "Utilities",
   "Telecommunications", "Industrial Automation", "Building Automation",
   "Elevator/Escalator", "Energy", "Oil & Gas", "Aerospace", "Defense"]

/-- ICP_CRITERIA["target_titles"]. -/
def target_titles : List String :=
  ["VP", "Vice President", "SVP", "Senior Vice President", "EVP",
   "Executive Vice President", "Director", "Senior Director", "Chief",
   "C-Level", "COO", "CTO", "CIO", "Head of", "General Manager", "President"]

/-- ICP_CRITERIA["target_departments"]. -/
def target_departments : List String :=
  ["Field Service", "Service", "Customer Service", "Customer Support",
   "Technical Support", "Operations", "Service Operations", "Aftermarket",
   "Service Delivery", "Digital", "Technology", "IT", "Innovation"]

/-- ICP_CRITERIA["min_company_size"]. -/
def min_company_size : Int := 500

/-- ICP_CRITERIA["preferred_company_size"]. -/
def preferred_company_size : Int := 1000

/-- ICP_CRITERIA["score_weights"]["industry_match"]. -/
def weight_industry_match : Int := 30

/-- ICP_CRITERIA["score_weights"]["title_match"]. -/
def weight_title_match : Int := 25

/-- ICP_CRITERIA["score_weights"]["department_match"]. -/
def weight_department_match : Int := 20

/-- ICP_CRITERIA["score_weights"]["company_size"]. -/
def weight_company_size : Int := 15

/-- ICP_CRITERIA["score_weights"]["speaker_bonus"]. -/
def weight_speaker_bonus : Int := 10

/-- ICP_THRESHOLDS["high"]. -/
def threshold_high : Int := 75

/-- ICP_THRESHOLDS["medium"]. -/
def threshold_medium : Int := 50

/-! ## src/models/schemas.py -/

/-- MessageType enum. -/
inductive MessageType where
  | REQUEST | RESPONSE | DISPUTE | CONFIRM | ERROR | STATUS
deriving Repr, DecidableEq

/-- AgentMessage (schemas.py).  The `payload` dict is opaque to the bus and
to the shared context (the agents unpack it immediately); the operations
modelled in this file receive the unpacked payload fields as explicit
arguments, so the envelope is modelled without the payload map.  The
`timestamp` field (wall-clock) is likewise omitted. -/
structure AgentMessage where
  id : String := ""
  sender : String
  recipient : String
  message_type : MessageType
  action : String := ""
  requires_response : Bool := false
  conversation_id : String := ""
deriving Repr, DecidableEq

/-- Speaker (schemas.py). -/
structure Speaker where
  name : String
  title : String := ""
  company : String := ""
  bio : String := ""
  session_title : String := ""
  linkedin_url : String := ""
deriving Repr, DecidableEq

/-- Attendee (schemas.py). -/
structure Attendee where
  name : String
  title : String := ""
  company : String := ""
deriving Repr, DecidableEq

/-- Company (schemas.py). -/
structure Company where
  name : String
  industry : String := ""
  size : Option Int := none
  size_category : String := ""
  headquarters : String := ""
  website : String := ""
  description : String := ""
  source : String := ""
  speakers : List String := []
  attendees : List String := []
deriving Repr, DecidableEq

/-- ConferenceData (schemas.py); the `scraped_at` wall-clock timestamp is
omitted. -/
structure ConferenceData where
  url : String
  conference_name : String := ""
  date : String := ""
  location : String := ""
  speakers : List Speaker := []
  attendees : List Attendee := []
  companies : List Company := []
deriving Repr, DecidableEq

/-- ICPResult (schemas.py).  Pydantic enforces `0 ≤ score ≤ 100` at
construction time only (`validate_assignment` is off), so the field itself
is an unrestricted `Int` and the constructor-side check is modelled at the
construction sites that can receive out-of-range data (`validate_company`). -/
structure ICPResult where
  company_name : String
  score : Int
  fit_level : String
  reasoning : String
  industry_score : Int := 0
  title_score : Int := 0
  department_score : Int := 0
  size_score : Int := 0
  speaker_bonus : Int := 0
  validated_by : String := ""
  disputed : Bool := false
  dispute_reason : String := ""
  final_score : Option Int := none
deriving Repr, DecidableEq

/-- Effective score: `final_score` if present, else `score` (the
`icp.final_score or icp.score` idiom used for display/export). -/
def effective_score (r : ICPResult) : Int :=
  r.final_score.getD r.score

/-- AgentContext (schemas.py). -/
structure AgentContext where
  url : String
  conference_data : Option ConferenceData := none
  icp_results : List ICPResult := []
  messages : List AgentMessage := []
  errors : List String := []
  status : String := "initialized"
  current_agent : String := ""
  verbose : Bool := false
deriving Repr, DecidableEq

/-! ## Fit level from thresholds

Both `_rule_based_validation` and `_handle_dispute` end with the same
three-way branch on `ICP_THRESHOLDS`. -/

/-- Fit level of a score: `High` if `score >= 75`, `Medium` if `>= 50`,
else `Low` (icp_validator_agent.py lines 245-250 and 315-320). -/
def fit_of (score : Int) : String :=
  if score ≥ threshold_high then "High"
  else if score ≥ threshold_medium then "Medium"
  else "Low"

/-! ## Company detail record

`SharedContext.get_company_details` builds a dict with keys `name`,
`speakers`, `attendees` (always) and `industry`, `size`, ... (only when a
company record was found).  `_rule_based_validation` reads it with `.get`
and defaults; the fields it touches are modelled here, optional where the
key may be missing. -/

/-- One entry of the `speakers` list of a company-detail dict:
`{"name": ..., "title": ...}`; read with `speaker.get("title", "")`. -/
structure ContactInfo where
  name : String := ""
  title : Option String := none
deriving Repr, DecidableEq

/-- The company-detail dict as consumed by `_rule_based_validation`. -/
structure CompanyInfo where
  industry : Option String := none
  size : Option Int := none
  employee_count : Option Int := none
  speakers : List ContactInfo := []
deriving Repr, DecidableEq

/-! ## icp_validator_agent._rule_based_validation -/

/-- Industry rule: first target industry matching
`target.lower() in industry or industry in target.lower()` where
`industry = company_info.get("industry", "").lower()`. -/
def industry_match (info : CompanyInfo) : Option String :=
  let industry := pyLower (info.industry.getD "")
  target_industries.find? fun t =>
    substrOf (pyLower t) industry || substrOf industry (pyLower t)

/-- Title rule: first speaker whose title contains some target title,
case-insensitively (break on first hit, outer loop over speakers). -/
def title_match (info : CompanyInfo) : Option ContactInfo :=
  info.speakers.find? fun sp =>
    target_titles.any fun t =>
      substrOf (pyLower t) (pyLower (sp.title.getD ""))

/-- Department rule: first (speaker, department-keyword) hit, in speaker
order then keyword order; the reasoning names the keyword. -/
def department_match (info : CompanyInfo) : Option String :=
  info.speakers.findSome? fun sp =>
    target_departments.find? fun d =>
      substrOf (pyLower d) (pyLower (sp.title.getD ""))

/-- Size taken by `company_info.get("size") or company_info.get("employee_count")`
followed by the truthiness test `if company_size:`. -/
def effective_size (info : CompanyInfo) : Option Int :=
  let c := pyOrInt info.size info.employee_count
  if truthyInt c then c else none

/-- Size score and its reasoning line, as a function of the effective
size (icp_validator_agent.py 224-233). -/
def size_component_of (c? : Option Int) : Int × List String :=
  match c? with
  | some c =>
    if c ≥ preferred_company_size then
      (weight_company_size,
       ["Enterprise size: " ++ toString c ++ "+ employees"])
    else if c ≥ min_company_size then
      (weight_company_size / 2,
       ["Mid-market size: " ++ toString c ++ " employees"])
    else (0, [])
  | none => (0, [])

/-- Size score and its reasoning line (icp_validator_agent.py 224-233). -/
def size_component (info : CompanyInfo) : Int × List String :=
  size_component_of (effective_size info)

/-- `_rule_based_validation` (icp_validator_agent.py 183-265). -/
def rule_based_validation (company_name : String) (info : CompanyInfo) :
    ICPResult :=
  let ifound := industry_match info
  let industry_score : Int := if ifound.isSome then weight_industry_match else 0
  let iparts : List String := match ifound with
    | some t => ["Industry match: " ++ t]
    | none => []
  let tfound := title_match info
  let title_score : Int := if tfound.isSome then weight_title_match else 0
  let tparts : List String := match tfound with
    | some sp => ["Title match: " ++ sp.title.getD ""]
    | none => []
  let dfound := department_match info
  let department_score : Int :=
    if dfound.isSome then weight_department_match else 0
  let dparts : List String := match dfound with
    | some d => ["Department match: " ++ d]
    | none => []
  let sz := size_component info
  let size_score := sz.1
  let speaker_bonus : Int :=
    if info.speakers.isEmpty then 0 else weight_speaker_bonus
  let bparts : List String :=
    if info.speakers.isEmpty then []
    else ["Has " ++ toString info.speakers.length ++ " speaker(s) at conference"]
  let parts := iparts ++ tparts ++ dparts ++ sz.2 ++ bparts
  let score := industry_score + title_score + department_score +
    size_score + speaker_bonus
  { company_name := company_name
    score := score
    fit_level := fit_of score
    reasoning :=
      if parts.isEmpty then "Insufficient data for scoring"
      else String.intercalate "; " parts
    industry_score := industry_score
    title_score := title_score
    department_score := department_score
    size_score := size_score
    speaker_bonus := speaker_bonus
    validated_by := "ICPValidatorAgent" }

/-! ## icp_validator_agent._validate_company

The Gemini call returns a JSON dict read with `.get` and per-key defaults;
the `ICPResult(...)` construction then runs pydantic validation, and any
exception inside the `try` block (oracle failure, malformed response, or a
score outside `[0, 100]` rejected by `Field(ge=0, le=100)`) falls back to
`_rule_based_validation`. -/

/-- The dict returned by `gemini.validate_icp`, with every key optional
(missing keys take the `.get` defaults at the read sites). -/
structure OracleValidation where
  score : Option Int := none
  fit_level : Option String := none
  reasoning : Option String := none
  industry_score : Option Int := none
  title_score : Option Int := none
  department_score : Option Int := none
  size_score : Option Int := none
  speaker_bonus : Option Int := none
deriving Repr, DecidableEq

/-- `_validate_company` (icp_validator_agent.py 158-181).  `oracle = none`
models `self.gemini is None`; `some (.error _)` a raised oracle call;
`some (.ok r)` a returned dict.  An out-of-range score makes the pydantic
constructor raise inside the `try`, triggering the same fallback. -/
def validate_company (oracle : Option (Except Unit OracleValidation))
    (company_name : String) (info : CompanyInfo) : ICPResult :=
  match oracle with
  | some (Except.ok r) =>
    let s := r.score.getD 50
    if 0 ≤ s ∧ s ≤ 100 then
      { company_name := company_name
        score := s
        fit_level := r.fit_level.getD "Medium"
        reasoning := r.reasoning.getD ""
        industry_score := r.industry_score.getD 0
        title_score := r.title_score.getD 0
        department_score := r.department_score.getD 0
        size_score := r.size_score.getD 0
        speaker_bonus := r.speaker_bonus.getD 0
        validated_by := "ICPValidatorAgent" }
    else rule_based_validation company_name info
  | some (Except.error _) => rule_based_validation company_name info
  | none => rule_based_validation company_name info

/-! ## icp_validator_agent._handle_dispute -/

/-- The dict returned by `gemini.resolve_dispute`. -/
structure OracleResolution where
  final_score : Option Int := none
  final_fit_level : Option String := none
  explanation : Option String := none
deriving Repr, DecidableEq

/-- Shared fallback of `_handle_dispute` (lines 304-307 and 309-312):
`if suggested_score and abs(suggested_score - original.score) <= 20`.
Python truthiness makes `None` and `0` suggested scores never accepted. -/
def dispute_fallback (revised : ICPResult) (original_score : Int)
    (suggested_score : Option Int) : ICPResult :=
  if truthyInt suggested_score ∧
      |suggested_score.getD 0 - original_score| ≤ 20 then
    { revised with score := suggested_score.getD 0
                   final_score := some (suggested_score.getD 0) }
  else revised

/-- `_handle_dispute` (icp_validator_agent.py 267-325).  The copy at lines
273-286 does not copy `final_score` (it is reset to `None`), sets
`disputed := true` and `dispute_reason`.  Whatever branch ran, lines
314-320 recompute `fit_level` from the revised score. -/
def handle_dispute (oracle : Option (Except Unit OracleResolution))
    (original : ICPResult) (dispute_reason : String)
    (suggested_score : Option Int) : ICPResult :=
  let revised := { original with disputed := true
                                 dispute_reason := dispute_reason
                                 final_score := none }
  let revised := match oracle with
    | some (Except.ok res) =>
      let fs := res.final_score.getD original.score
      { revised with final_score := some fs
                     score := fs
                     fit_level := res.final_fit_level.getD original.fit_level
                     reasoning := original.reasoning ++ " | Dispute resolved: "
                       ++ res.explanation.getD "" }
    | some (Except.error _) =>
      dispute_fallback revised original.score suggested_score
    | none =>
      dispute_fallback revised original.score suggested_score
  { revised with fit_level := fit_of revised.score }

/-! ## icp_validator_agent._update_with_enrichment

Only the `industry` key of the enrichment dict affects the stored result.
The fit-level update at lines 344-348 has no `Low` branch. -/

/-- `_update_with_enrichment` applied to one pending result (icp_validator_agent.py
327-348), given `industry = enrichment.get("industry", "")`. -/
def update_with_enrichment (result : ICPResult) (industry : String) :
    ICPResult :=
  let fired := industry ≠ "" ∧ result.industry_score = 0 ∧
    (target_industries.find? fun t =>
      substrOf (pyLower t) (pyLower industry)).isSome
  let r1 :=
    if fired then
      { result with industry_score := weight_industry_match
                    score := result.score + weight_industry_match
                    reasoning := result.reasoning ++ "; Industry confirmed: "
                      ++ industry }
    else result
  if r1.score ≥ threshold_high then { r1 with fit_level := "High" }
  else if r1.score ≥ threshold_medium then { r1 with fit_level := "Medium" }
  else r1

/-! ## quality_agent._review_score_data -/

/-- The review dict built by `_review_score_data`. -/
structure Review where
  company_name : String
  original_score : Int
  should_dispute : Bool
  reason : String
  suggested_score : Option Int
deriving Repr, DecidableEq

/-- The `result_data` dict as read by `_review_score_data` with `.get`
defaults (`company_name` "Unknown", `score` 0, `fit_level` "Low",
`reasoning` ""). -/
structure ResultData where
  company_name : Option String := none
  score : Option Int := none
  fit_level : Option String := none
  reasoning : Option String := none
deriving Repr, DecidableEq

/-- QualityAgent senior-title keywords (quality_agent.py 166). -/
def senior_titles : List String :=
  ["SVP", "VP", "Chief", "Director", "President", "Head of"]

/-- QualityAgent field-service keywords (quality_agent.py 181), already
lowercase in the source. -/
def field_service_keywords : List String :=
  ["field service", "service", "aftermarket", "support"]

/-- Rule-2 test: some speaker title contains a senior keyword,
case-insensitively. -/
def has_senior_speaker (speakers : List ContactInfo) : Bool :=
  speakers.any fun sp =>
    senior_titles.any fun st =>
      substrOf (pyLower st) (pyLower (sp.title.getD ""))

/-- Rule-3 test: some speaker title contains a field-service keyword. -/
def has_fs_title (speakers : List ContactInfo) : Bool :=
  speakers.any fun sp =>
    field_service_keywords.any fun kw =>
      substrOf kw (pyLower (sp.title.getD ""))

/-- `_review_score_data` (quality_agent.py 140-211).  `oracle` models the
`_gemini_review` call guarded by `self.gemini and score >= 50`: its dict is
already shaped as a `Review` by the code.  The four deterministic rules
return early; the oracle verdict is adopted only when it disputes. -/
def review_score_data (oracle : Option (Except Unit Review))
    (result_data : ResultData) (speakers : List ContactInfo) : Review :=
  let company_name := result_data.company_name.getD "Unknown"
  let score := result_data.score.getD 0
  let reasoning := result_data.reasoning.getD ""
  let base : Review :=
    { company_name := company_name
      original_score := score
      should_dispute := false
      reason := ""
      suggested_score := none }
  if ¬ speakers.isEmpty ∧ score < 60 then
    { base with should_dispute := true
                reason := "Company has " ++ toString speakers.length ++
                  " speaker(s) but score is only " ++ toString score
                suggested_score := some (min (score + 15) 85) }
  else if has_senior_speaker speakers ∧ score < 70 then
    { base with should_dispute := true
                reason := "Company has senior-level speaker but score is " ++
                  toString score
                suggested_score := some (min (score + 20) 90) }
  else if has_fs_title speakers ∧ score < 75 then
    { base with should_dispute := true
                reason := "Company has Field Service leadership but score is "
                  ++ toString score
                suggested_score := some (min (score + 15) 92) }
  else if score ≥ 80 ∧ speakers.isEmpty ∧ substrOf "Unknown" reasoning then
    { base with should_dispute := true
                reason := "High score (" ++ toString score ++
                  ") with insufficient evidence"
                suggested_score := some (max (score - 15) 50) }
  else
    match oracle with
    | some (Except.ok g) => if score ≥ 50 ∧ g.should_dispute then g else base
    | some (Except.error _) => base
    | none => base

/-! ## communication/context.py — SharedContext (value level)

The pydantic `AgentContext` is modelled by value; `model_copy(deep=True)`
is the identity on values, so checkpoints store the context value itself.
Reference sharing (what deep copy buys) is modelled separately below for
the checkpoint/restore frame claim. -/

/-- Python-dict key lookup on an association list (first matching key;
keys are unique in every state the operations build). -/
def assocLookup {α : Type} (l : List (String × α)) (k : String) : Option α :=
  match l with
  | [] => none
  | (k', v) :: rest => if k' == k then some v else assocLookup rest k

/-- Python-dict assignment on an association list: replace the (unique)
entry for the key in place, else append a new entry (insertion order). -/
def assocSet {α : Type} (l : List (String × α)) (k : String) (v : α) :
    List (String × α) :=
  match l with
  | [] => [(k, v)]
  | (k', v') :: rest =>
    if k' == k then (k, v) :: rest else (k', v') :: assocSet rest k v

/-- Python `dict.pop(k, default)`: drop the (unique) entry for the key. -/
def assocErase {α : Type} (l : List (String × α)) (k : String) :
    List (String × α) :=
  match l with
  | [] => []
  | (k', v) :: rest =>
    if k' == k then rest else (k', v) :: assocErase rest k

/-- `SharedContext` (context.py): the live `AgentContext` plus the named
checkpoints (`_start_time` omitted). -/
structure SharedContextState where
  context : AgentContext
  checkpoints : List (String × AgentContext) := []
deriving Repr, DecidableEq

/-- `SharedContext.add_icp_result` (context.py 61-73) on the results list:
find the first result with the same `company_name`; if found, replace it at
`list.index(existing)` (the first element *equal* to it — which is the
found one, since every earlier element has a different name); else append. -/
def add_icp_result (results : List ICPResult) (result : ICPResult) :
    List ICPResult :=
  match results.find? (fun r => r.company_name == result.company_name) with
  | some existing => results.set (results.indexOf existing) result
  | none => results ++ [result]

/-- `SharedContext.create_checkpoint` (context.py 83-88). -/
def create_checkpoint (s : SharedContextState) (name : String) :
    SharedContextState :=
  { s with checkpoints := assocSet s.checkpoints name s.context }

/-- `SharedContext.restore_checkpoint` (context.py 90-95): returns the new
state and the boolean result. -/
def restore_checkpoint (s : SharedContextState) (name : String) :
    SharedContextState × Bool :=
  match assocLookup s.checkpoints name with
  | some cp => ({ s with context := cp }, true)
  | none => (s, false)

/-- `SharedContext.get_companies` (context.py 97-118).  The Python `set` is
modelled as a `Finset`: names from the company list unconditionally, and
speaker/attendee affiliations when truthy (non-empty). -/
def get_companies (conference_data : Option ConferenceData) : Finset String :=
  match conference_data with
  | none => ∅
  | some d =>
    (d.companies.map Company.name).toFinset ∪
    ((d.speakers.filter fun s => s.company != "").map Speaker.company).toFinset ∪
    ((d.attendees.filter fun a => a.company != "").map Attendee.company).toFinset

/-! ## communication/message_bus.py

Handlers are synchronous callables returning an optional response; their
side effects live in the agents, not the bus, so they are modelled as pure
functions.  A pydantic message object is always truthy, so `if response:`
means "the handler returned a non-None message". -/

/-- A subscribed handler. -/
def Handler : Type := AgentMessage → Option AgentMessage

/-- MessageBus state: subscribers, append-only history, pending queues
(both dicts are `defaultdict(list)`, modelled as association lists in
insertion order). -/
structure MessageBus where
  subscribers : List (String × List Handler) := []
  history : List AgentMessage := []
  pending : List (String × List AgentMessage) := []

/-- `defaultdict(list)` element append: `d[k].append(v)`. -/
def addToEntry {α : Type} (l : List (String × List α)) (k : String) (v : α) :
    List (String × List α) :=
  match l with
  | [] => [(k, [v])]
  | (k', vs) :: rest =>
    if k' == k then (k', vs ++ [v]) :: rest else (k', vs) :: addToEntry rest k v

/-- `MessageBus.subscribe` (message_bus.py 37-45). -/
def subscribe (bus : MessageBus) (agent_name : String) (handler : Handler) :
    MessageBus :=
  { bus with subscribers := addToEntry bus.subscribers agent_name handler }

/-- First non-None handler response, in registration order. -/
def first_response (m : AgentMessage) : List Handler → Option AgentMessage
  | [] => none
  | h :: hs =>
    match h m with
    | some r => some r
    | none => first_response m hs

/-- `MessageBus.send` (message_bus.py 52-88).  Every message is appended to
history; broadcast invokes handlers for effect only; a registered
point-to-point recipient may produce a response (also appended to
history); an unregistered recipient gets the message queued.  The function
is total: no branch raises. -/
def send (bus : MessageBus) (m : AgentMessage) :
    MessageBus × Option AgentMessage :=
  let bus := { bus with history := bus.history ++ [m] }
  if m.recipient == "ALL" then (bus, none)
  else
    match assocLookup bus.subscribers m.recipient with
    | some handlers =>
      match first_response m handlers with
      | some r => ({ bus with history := bus.history ++ [r] }, some r)
      | none => (bus, none)
    | none =>
      ({ bus with pending := addToEntry bus.pending m.recipient m }, none)

/-- `MessageBus.get_pending_messages` (message_bus.py 90-93):
`self._pending_messages.pop(agent_name, [])`. -/
def get_pending_messages (bus : MessageBus) (agent_name : String) :
    MessageBus × List AgentMessage :=
  ({ bus with pending := assocErase bus.pending agent_name },
   (assocLookup bus.pending agent_name).getD [])

/-! ## SharedContext with explicit references (for deep-copy claims)

Python mutates the `AgentContext` object's list attributes in place, and
`model_copy(deep=True)` allocates fresh lists.  To state "restoring must
not share mutable sub-structures", the mutable list attributes are given
heap addresses: a context handle holds the addresses of its `icp_results`
and `errors` cells (its scalar attributes, here `status`, are immutable
values copied directly).  `deep_copy_ref` allocates fresh cells, exactly as
`model_copy(deep=True)` does. -/

/-- A context object: addresses of its mutable list attributes plus a
scalar attribute. -/
structure ContextRef where
  icpAddr : Nat
  errAddr : Nat
  status : String
deriving Repr, DecidableEq

/-- The whole `SharedContext` with its heap of list cells. -/
structure StateRef where
  heapIcp : Nat → List ICPResult
  heapErr : Nat → List String
  fresh : Nat
  ctx : ContextRef
  checkpoints : List (String × ContextRef)

/-- Every reachable address has been allocated. -/
def StateRefWF (s : StateRef) : Prop :=
  s.ctx.icpAddr < s.fresh ∧ s.ctx.errAddr < s.fresh ∧
  ∀ p ∈ s.checkpoints, p.2.icpAddr < s.fresh ∧ p.2.errAddr < s.fresh

/-- Heap update. -/
def writeCell {α : Type} (h : Nat → α) (a : Nat) (v : α) : Nat → α :=
  fun x => if x = a then v else h x

/-- `model_copy(deep=True)`: fresh cells holding copies of the source
context's lists, scalar attributes copied by value. -/
def deep_copy_ref (s : StateRef) (c : ContextRef) : StateRef × ContextRef :=
  let copy : ContextRef :=
    { icpAddr := s.fresh, errAddr := s.fresh + 1, status := c.status }
  ({ s with
      heapIcp := writeCell s.heapIcp s.fresh (s.heapIcp c.icpAddr)
      heapErr := writeCell s.heapErr (s.fresh + 1) (s.heapErr c.errAddr)
      fresh := s.fresh + 2 },
   copy)

/-- `create_checkpoint` at the reference level: store a deep copy under the
name (dict assignment). -/
def create_checkpoint_ref (s : StateRef) (name : String) : StateRef :=
  let p := deep_copy_ref s s.ctx
  { p.1 with checkpoints := assocSet p.1.checkpoints name p.2 }

/-- `restore_checkpoint` at the reference level: the live context becomes a
fresh deep copy of the stored checkpoint. -/
def restore_checkpoint_ref (s : StateRef) (name : String) : StateRef × Bool :=
  match assocLookup s.checkpoints name with
  | some cp =>
    let p := deep_copy_ref s cp
    ({ p.1 with ctx := p.2 }, true)
  | none => (s, false)

/-- Mutations of the live state: `add_icp_result` and `add_error` both
mutate the live context's list cells in place. -/
inductive Mutation where
  | addResult (r : ICPResult)
  | addError (e : String)

/-- Apply one in-place mutation to the live context's cells. -/
def apply_mutation (s : StateRef) (m : Mutation) : StateRef :=
  match m with
  | Mutation.addResult r =>
    let cell := add_icp_result (s.heapIcp s.ctx.icpAddr) r
    { s with heapIcp := writeCell s.heapIcp s.ctx.icpAddr cell }
  | Mutation.addError e =>
    let cell := s.heapErr s.ctx.errAddr ++ [e]
    { s with heapErr := writeCell s.heapErr s.ctx.errAddr cell }

/-- A phase: a sequence of in-place mutations. -/
def apply_mutations (s : StateRef) (ops : List Mutation) : StateRef :=
  ops.foldl apply_mutation s

/-! ## Derived operations and concrete test data -/

/-- The invariant of claim C2: score within `[0, 100]` and `fit_level`
determined by the effective score through the two ordered thresholds. -/
def score_fit_invariant (r : ICPResult) : Prop :=
  0 ≤ r.score ∧ r.score ≤ 100 ∧ r.fit_level = fit_of (effective_score r)

/-- Send a batch of messages in order, discarding responses. -/
def send_all (bus : MessageBus) (ms : List AgentMessage) : MessageBus :=
  ms.foldl (fun b m => (send b m).1) bus

/-- The pending queue of an agent (empty when absent). -/
def pending_of (bus : MessageBus) (name : String) : List AgentMessage :=
  (assocLookup bus.pending name).getD []

/-- The §8 scenario organization: industry "Industrial Equipment", one
speaker titled "VP Field Service", employee count 1200. -/
def acme_info : CompanyInfo :=
  { industry := some "Industrial Equipment"
    size := some 1200
    speakers := [{ name := "Jane Doe", title := some "VP Field Service" }] }

/-- An organization matching no scoring rule: an industry that neither
contains nor is contained in any target industry, no contacts, no size. -/
def nomatch_info : CompanyInfo :=
  { industry := some "Software" }

/-- A low original score for dispute-fallback inputs. -/
def dispute_orig : ICPResult :=
  { company_name := "Acme", score := 10, fit_level := "Low", reasoning := "r" }

/-- A mid original score for dispute-fallback inputs. -/
def dispute_orig40 : ICPResult :=
  { company_name := "Acme", score := 40, fit_level := "Low", reasoning := "r" }

/-- An oracle validation response whose fit level contradicts its score
(60 is Medium by the thresholds, the oracle says Low). -/
def oracle_inconsistent : OracleValidation :=
  { score := some 60, fit_level := some "Low", reasoning := some "gut feeling" }

/-- Conference data with the same organization spelled in two letter
cases across two sources. -/
def conference_mixed_case : ConferenceData :=
  { url := "http://conf"
    companies := [{ name := "Acme" }]
    speakers := [{ name := "Sam Lee", company := "ACME" }] }

/-- A pre-existing result for a different organization. -/
def result_beta : ICPResult :=
  { company_name := "Beta", score := 20, fit_level := "Low", reasoning := "" }

/-- First result for Acme. -/
def result_acme1 : ICPResult :=
  { company_name := "Acme", score := 40, fit_level := "Low", reasoning := "a" }

/-- Second result for Acme (same key, different content). -/
def result_acme2 : ICPResult :=
  { company_name := "Acme", score := 55, fit_level := "Medium", reasoning := "b" }

/-- An empty shared-context state. -/
def shared_state0 : SharedContextState :=
  { context := { url := "http://conf" } }

/-- An initial reference-level state: live context at addresses 0 and 1,
empty cells, no checkpoints. -/
def state_ref0 : StateRef :=
  { heapIcp := fun _ => []
    heapErr := fun _ => []
    fresh := 2
    ctx := { icpAddr := 0, errAddr := 1, status := "initialized" }
    checkpoints := [] }

/-- A message to a not-yet-registered agent. -/
def msg_q1 : AgentMessage :=
  { id := "m1", sender := "ICPValidatorAgent", recipient := "QualityAgent",
    message_type := MessageType.REQUEST, action := "review_score" }

/-- A second message to the same unregistered agent. -/
def msg_q2 : AgentMessage :=
  { id := "m2", sender := "EnricherAgent", recipient := "QualityAgent",
    message_type := MessageType.STATUS, action := "status_update" }

/-- The whole C7 scenario as one derived operation: create a named
checkpoint, run a phase of in-place mutations, then restore the
checkpoint. -/
def checkpoint_restore_run (s : StateRef) (name : String)
    (ops : List Mutation) : StateRef × Bool :=
  restore_checkpoint_ref (apply_mutations (create_checkpoint_ref s name) ops)
    name

/-! # Theorems -/

/-- C10: restoring a checkpoint under a name that was never created
returns `false` and leaves the whole state — live context (conference
data, results, messages, errors, status) and stored checkpoints —
unchanged. -/
theorem context_C10_restore_missing (s : SharedContextState) (name : String)
    (h : assocLookup s.checkpoints name = none) :
    restore_checkpoint s name = (s, false) := by
  simp [restore_checkpoint, h]

/-- C10 witness: restoring a never-created checkpoint name on a fresh
state returns the state unchanged and `false`. -/
theorem context_C10_restore_missing_witness :
    restore_checkpoint shared_state0 "pre-validate" = (shared_state0, false) :=
  context_C10_restore_missing shared_state0 "pre-validate" rfl

/-- C6 counterexample: with organization "Acme" in the company list and
affiliation "ACME" on a speaker, `get_companies` keeps both spellings —
two entries for one organization differing only in letter case, refuting
case-insensitive de-duplication. -/
theorem context_C6_counterexample :
    "Acme" ∈ get_companies (some conference_mixed_case) ∧
    "ACME" ∈ get_companies (some conference_mixed_case) ∧
    pyLower "Acme" = pyLower "ACME" ∧
    "Acme" ≠ "ACME" ∧
    (get_companies (some conference_mixed_case)).card = 2 := by
  decide

/-- C6 amended: `get_companies` returns the union of names from the
explicit company list, from speakers' non-empty affiliations and from
attendees' non-empty affiliations, de-duplicated by exact string equality
(case-sensitively), and is empty without conference data. -/
theorem context_C6_companies_exact_union (d : ConferenceData) (x : String) :
    (x ∈ get_companies (some d) ↔
      (∃ c ∈ d.companies, c.name = x) ∨
      (∃ s ∈ d.speakers, s.company ≠ "" ∧ s.company = x) ∨
      (∃ a ∈ d.attendees, a.company ≠ "" ∧ a.company = x)) ∧
    get_companies (none : Option ConferenceData) = ∅ := by
  refine ⟨?_, rfl⟩
  simp only [get_companies, Finset.mem_union, List.mem_toFinset, List.mem_map,
    List.mem_filter, bne_iff_ne, ne_eq]
  aesop

/-- C9: in the oracle-less (or oracle-failed) dispute fallback, an absent
suggested score, and equally a suggested score of 0 — even though its
distance from an original score at most 20 passes the delta test — is
never accepted: the score is kept and `final_score` stays unset, because
the acceptance test is on Python truthiness of `suggested_score`. -/
theorem icp_C9_zero_or_absent_suggestion (original : ICPResult)
    (reason : String) (h0 : 0 ≤ original.score)
    (h20 : original.score ≤ 20) :
    |(0 : Int) - original.score| ≤ 20 ∧
    (handle_dispute none original reason (some 0)).score = original.score ∧
    (handle_dispute none original reason (some 0)).final_score = none ∧
    (handle_dispute (some (Except.error ())) original reason (some 0)).score
      = original.score ∧
    (handle_dispute (some (Except.error ())) original reason
      (some 0)).final_score = none ∧
    (handle_dispute none original reason none).score = original.score ∧
    (handle_dispute none original reason none).final_score = none := by
  refine ⟨abs_le.mpr ⟨by omega, by omega⟩, ?_⟩
  simp [handle_dispute, dispute_fallback, truthyInt]

/-- C9 witness: original score 10, suggested score 0 — delta 10 would be
accepted, yet the original is kept and `final_score` stays `none`. -/
theorem icp_C9_zero_or_absent_suggestion_witness :
    (handle_dispute none dispute_orig "d" (some 0)).score =
      dispute_orig.score ∧
    (handle_dispute none dispute_orig "d" (some 0)).final_score = none :=
  ⟨(icp_C9_zero_or_absent_suggestion dispute_orig "d" (by decide)
      (by decide)).2.1,
   (icp_C9_zero_or_absent_suggestion dispute_orig "d" (by decide)
      (by decide)).2.2.1⟩

/-- C1 counterexample: original score 10, suggested score 0.  The
suggestion differs from the original by 10 ≤ 20, yet it is not accepted
(the original is kept, `final_score` unset) — refuting "accepted exactly
when it differs from the original by at most 20 points". -/
theorem icp_C1_counterexample :
    |(0 : Int) - dispute_orig.score| ≤ 20 ∧
    (handle_dispute none dispute_orig "reason" (some 0)).score =
      dispute_orig.score ∧
    (handle_dispute none dispute_orig "reason" (some 0)).final_score =
      none := by
  decide

/-- C1 amended: in oracle-less dispute resolution (identical after oracle
failure), the effective score stays within 20 points of the original; the
suggested score is accepted (becoming both `score` and `final_score`)
exactly when it is present, non-zero and differs from the original by at
most 20 points, otherwise the original score is kept with `final_score`
unset; and `fit_level` is recomputed from the revised score by the two
ordered thresholds (High at 75, Medium at 50). -/
theorem icp_C1_dispute_fallback (original : ICPResult) (reason : String)
    (suggested : Option Int) :
    handle_dispute (some (Except.error ())) original reason suggested =
      handle_dispute none original reason suggested ∧
    |effective_score (handle_dispute none original reason suggested) -
      original.score| ≤ 20 ∧
    (handle_dispute none original reason suggested).fit_level =
      fit_of (handle_dispute none original reason suggested).score ∧
    (∀ s, suggested = some s → s ≠ 0 → |s - original.score| ≤ 20 →
      (handle_dispute none original reason suggested).score = s ∧
      (handle_dispute none original reason suggested).final_score = some s) ∧
    ((∀ s, suggested = some s → s = 0 ∨ 20 < |s - original.score|) →
      (handle_dispute none original reason suggested).score =
        original.score ∧
      (handle_dispute none original reason suggested).final_score = none) := by
  refine ⟨rfl, ?_, ?_, ?_, ?_⟩
  · cases suggested with
    | none => simp [handle_dispute, dispute_fallback, truthyInt,
        effective_score]
    | some s =>
      by_cases hs : s ≠ 0 ∧ |s - original.score| ≤ 20
      · simp [handle_dispute, dispute_fallback, truthyInt, effective_score,
          hs.1, hs.2]
      · simp only [handle_dispute, dispute_fallback, truthyInt]
        rw [if_neg]
        · simp [effective_score]
        · simpa using hs
  · rfl
  · rintro s rfl hs hd
    simp [handle_dispute, dispute_fallback, truthyInt, hs, hd]
  · intro hrej
    cases suggested with
    | none => simp [handle_dispute, dispute_fallback, truthyInt]
    | some s =>
      rcases hrej s rfl with h | h
      · subst h
        simp [handle_dispute, dispute_fallback, truthyInt]
      · simp only [handle_dispute, dispute_fallback, truthyInt]
        rw [if_neg]
        · exact ⟨rfl, rfl⟩
        · simp only [Option.getD_some, bne_iff_ne, ne_eq]
          rintro ⟨-, habs⟩
          omega

/-- C1 witness: original score 40, suggested 55 (delta 15): the
suggestion is accepted and becomes the final score. -/
theorem icp_C1_dispute_fallback_witness :
    (handle_dispute none dispute_orig40 "x" (some 55)).score = 55 ∧
    (handle_dispute none dispute_orig40 "x" (some 55)).final_score =
      some 55 :=
  (icp_C1_dispute_fallback dispute_orig40 "x" (some 55)).2.2.2.1 55 rfl
    (by decide) (by decide)

/-- Helper: appending a fresh element and looking it up by index. -/
theorem indexOf_append_singleton {α : Type} [DecidableEq α] (l : List α)
    (x : α) (h : ∀ y ∈ l, y ≠ x) : (l ++ [x]).indexOf x = l.length := by
  induction l with
  | nil => simp
  | cons z zs ih =>
    have hz : z ≠ x := h z (by simp)
    simp only [List.cons_append, List.indexOf_cons_ne _ hz,
      ih (fun y hy => h y (by simp [hy]))]
    rfl

/-- Helper: setting the position right after a list. -/
theorem set_append_singleton {α : Type} (l : List α) (a b : α) :
    (l ++ [a]).set l.length b = l ++ [b] := by
  induction l with
  | nil => rfl
  | cons x xs ih => simp [ih]

/-- Helper: adding a result under a name absent from the list appends. -/
theorem add_icp_result_fresh (l : List ICPResult) (r : ICPResult)
    (h : ∀ x ∈ l, x.company_name ≠ r.company_name) :
    add_icp_result l r = l ++ [r] := by
  unfold add_icp_result
  rw [List.find?_eq_none.mpr]
  intro x hx
  simpa using h x hx

/-- C5: `add_icp_result` is an upsert keyed by organization name.  On a
list with no record named like `r1`, adding `r1` appends it; then adding
`r2` with the same name replaces it in place: the final list is the
original list with exactly one record for that name, equal to the second
result, at the position the first occupied. -/
theorem context_C5_upsert (l : List ICPResult) (r1 r2 : ICPResult)
    (hname : r2.company_name = r1.company_name)
    (hfresh : ∀ x ∈ l, x.company_name ≠ r1.company_name) :
    add_icp_result l r1 = l ++ [r1] ∧
    add_icp_result (add_icp_result l r1) r2 = l ++ [r2] ∧
    (add_icp_result (add_icp_result l r1) r2).countP
      (fun x => x.company_name == r1.company_name) = 1 := by
  have h1 : add_icp_result l r1 = l ++ [r1] :=
    add_icp_result_fresh l r1 hfresh
  have hfind : (l ++ [r1]).find?
      (fun x => x.company_name == r2.company_name) = some r1 := by
    rw [List.find?_append, List.find?_eq_none.mpr, Option.none_or]
    · simp [hname]
    · intro x hx
      simp only [beq_iff_eq, hname, decide_eq_true_eq]
      exact hfresh x hx
  have hne : ∀ y ∈ l, y ≠ r1 := by
    intro y hy e
    exact hfresh y hy (by rw [e])
  have h2 : add_icp_result (add_icp_result l r1) r2 = l ++ [r2] := by
    rw [h1]
    unfold add_icp_result
    rw [hfind]
    show (l ++ [r1]).set ((l ++ [r1]).indexOf r1) r2 = l ++ [r2]
    rw [indexOf_append_singleton l r1 hne, set_append_singleton]
  refine ⟨h1, h2, ?_⟩
  rw [h2, List.countP_append]
  have hz : l.countP (fun x => x.company_name == r1.company_name) = 0 := by
    rw [List.countP_eq_zero]
    intro x hx
    simpa using hfresh x hx
  simp [hz, hname]

/-- C5 witness: on a list holding a "Beta" record, two successive adds for
"Acme" leave one "Acme" record with the second content, placed where the
first landed. -/
theorem context_C5_upsert_witness :
    add_icp_result (add_icp_result [result_beta] result_acme1) result_acme2 =
      [result_beta, result_acme2] ∧
    (add_icp_result (add_icp_result [result_beta] result_acme1)
      result_acme2).countP
      (fun x => x.company_name == result_acme1.company_name) = 1 :=
  ⟨(context_C5_upsert [result_beta] result_acme1 result_acme2 rfl
      (by decide)).2.1,
   (context_C5_upsert [result_beta] result_acme1 result_acme2 rfl
      (by decide)).2.2⟩

/-- C4: the QualityReviewer evaluates its four deterministic dispute rules
in strict priority order with first match winning: (1) at least one
associated contact and score < 60 suggests min(score+15, 85); (2) a
senior-titled contact and score < 70 suggests min(score+20, 90); (3) a
field-service-titled contact and score < 75 suggests min(score+15, 92);
(4) score ≥ 80 with zero contacts and a reasoning containing "Unknown"
suggests max(score-15, 50); when no rule fires and no oracle is
configured, the score is confirmed with no dispute.  The keyword tests are
case-insensitive substring checks over the contact titles. -/
theorem quality_C4_priority_rules (oracle : Option (Except Unit Review))
    (rd : ResultData) (speakers : List ContactInfo) :
    (has_senior_speaker speakers = true ↔ ∃ sp ∈ speakers,
      ∃ st ∈ senior_titles,
        substrOf (pyLower st) (pyLower (sp.title.getD "")) = true) ∧
    (has_fs_title speakers = true ↔ ∃ sp ∈ speakers,
      ∃ kw ∈ field_service_keywords,
        substrOf kw (pyLower (sp.title.getD "")) = true) ∧
    (speakers ≠ [] → rd.score.getD 0 < 60 →
      (review_score_data oracle rd speakers).should_dispute = true ∧
      (review_score_data oracle rd speakers).suggested_score =
        some (min (rd.score.getD 0 + 15) 85) ∧
      (review_score_data oracle rd speakers).original_score =
        rd.score.getD 0) ∧
    (¬ (speakers ≠ [] ∧ rd.score.getD 0 < 60) →
      has_senior_speaker speakers = true → rd.score.getD 0 < 70 →
      (review_score_data oracle rd speakers).should_dispute = true ∧
      (review_score_data oracle rd speakers).suggested_score =
        some (min (rd.score.getD 0 + 20) 90)) ∧
    (¬ (speakers ≠ [] ∧ rd.score.getD 0 < 60) →
      ¬ (has_senior_speaker speakers = true ∧ rd.score.getD 0 < 70) →
      has_fs_title speakers = true → rd.score.getD 0 < 75 →
      (review_score_data oracle rd speakers).should_dispute = true ∧
      (review_score_data oracle rd speakers).suggested_score =
        some (min (rd.score.getD 0 + 15) 92)) ∧
    (¬ (speakers ≠ [] ∧ rd.score.getD 0 < 60) →
      ¬ (has_senior_speaker speakers = true ∧ rd.score.getD 0 < 70) →
      ¬ (has_fs_title speakers = true ∧ rd.score.getD 0 < 75) →
      80 ≤ rd.score.getD 0 → speakers = [] →
      substrOf "Unknown" (rd.reasoning.getD "") = true →
      (review_score_data oracle rd speakers).should_dispute = true ∧
      (review_score_data oracle rd speakers).suggested_score =
        some (max (rd.score.getD 0 - 15) 50)) ∧
    (¬ (speakers ≠ [] ∧ rd.score.getD 0 < 60) →
      ¬ (has_senior_speaker speakers = true ∧ rd.score.getD 0 < 70) →
      ¬ (has_fs_title speakers = true ∧ rd.score.getD 0 < 75) →
      ¬ (80 ≤ rd.score.getD 0 ∧ speakers = [] ∧
         substrOf "Unknown" (rd.reasoning.getD "") = true) →
      (review_score_data none rd speakers).should_dispute = false ∧
      (review_score_data none rd speakers).suggested_score = none) := by
  refine ⟨?_, ?_, ?_, ?_, ?_, ?_, ?_⟩
  · simp [has_senior_speaker, List.any_eq_true]
  · simp [has_fs_title, List.any_eq_true]
  · intro h1 h2
    simp only [review_score_data]
    rw [if_pos ⟨by simpa [List.isEmpty_iff] using h1, h2⟩]
    exact ⟨rfl, rfl, rfl⟩
  · intro hn1 h1 h2
    simp only [review_score_data]
    rw [if_neg (by simpa [List.isEmpty_iff, not_and, not_lt] using
      fun hne h => hn1 ⟨hne, h⟩), if_pos ⟨h1, h2⟩]
    exact ⟨rfl, rfl⟩
  · intro hn1 hn2 h1 h2
    simp only [review_score_data]
    rw [if_neg (by simpa [List.isEmpty_iff, not_and, not_lt] using
      fun hne h => hn1 ⟨hne, h⟩), if_neg hn2, if_pos ⟨h1, h2⟩]
    exact ⟨rfl, rfl⟩
  · intro hn1 hn2 hn3 h1 h2 h3
    simp only [review_score_data]
    rw [if_neg (by simpa [List.isEmpty_iff, not_and, not_lt] using
      fun hne h => hn1 ⟨hne, h⟩), if_neg hn2, if_neg hn3,
      if_pos ⟨h1, by simpa [List.isEmpty_iff] using h2, h3⟩]
    exact ⟨rfl, rfl⟩
  · intro hn1 hn2 hn3 hn4
    simp only [review_score_data]
    rw [if_neg (by simpa [List.isEmpty_iff, not_and, not_lt] using
      fun hne h => hn1 ⟨hne, h⟩), if_neg hn2, if_neg hn3,
      if_neg (by simpa [List.isEmpty_iff] using hn4)]
    exact ⟨rfl, rfl⟩

/-- C4 witness: score 40 with one contact and no oracle fires rule 1 and
suggests min(40+15, 85) = 55; score 85, no contacts, reasoning containing
"Unknown" fires rule 4 and suggests max(85-15, 50) = 70. -/
theorem quality_C4_priority_rules_witness :
    (review_score_data none { score := some 40 }
      [{ name := "s", title := some "VP Field Service" }]).suggested_score =
      some 55 ∧
    (review_score_data none
      { score := some 85, reasoning := some "Unknown industry" }
      []).suggested_score = some 70 :=
  ⟨((quality_C4_priority_rules none { score := some 40 }
      [{ name := "s", title := some "VP Field Service" }]).2.2.1
      (by decide) (by decide)).2.1,
   ((quality_C4_priority_rules none
      { score := some 85, reasoning := some "Unknown industry" } []).2.2.2.2.2.1
      (by decide) (by decide) (by decide) (by decide) rfl (by decide)).2⟩

/-- Helper: when the effective size is absent or below the minimum
threshold, the size component scores nothing and adds no reasoning. -/
theorem size_component_zero (info : CompanyInfo)
    (h : ∀ c, effective_size info = some c → c < min_company_size) :
    size_component info = (0, []) := by
  unfold size_component
  cases heff : effective_size info with
  | none => rfl
  | some c =>
    have hc := h c heff
    simp only [min_company_size] at hc
    simp only [size_component_of]
    rw [if_neg (by simp only [preferred_company_size, ge_iff_le]; omega),
      if_neg (by simp only [min_company_size, ge_iff_le]; omega)]

/-- C3: the rule-based fallback score is the sum of the five components;
each match component is full weight exactly when its case-insensitive
substring rule fires and 0 otherwise; size scores full weight at or above
the preferred threshold and integer-floored half weight at or above the
minimum; the §8 Acme scenario (industry "Industrial Equipment", a speaker
"VP Field Service", 1200 employees) scores 30+25+20+15+10 = 100 with High
fit; and when nothing fires the score is 0 with the insufficient-data
reasoning. -/
theorem icp_C3_rule_based_scoring (company_name : String)
    (info : CompanyInfo) :
    (rule_based_validation company_name info).score =
      (rule_based_validation company_name info).industry_score +
      (rule_based_validation company_name info).title_score +
      (rule_based_validation company_name info).department_score +
      (rule_based_validation company_name info).size_score +
      (rule_based_validation company_name info).speaker_bonus ∧
    ((rule_based_validation company_name info).industry_score =
      if (industry_match info).isSome then weight_industry_match else 0) ∧
    ((industry_match info).isSome ↔ ∃ t ∈ target_industries,
      (substrOf (pyLower t) (pyLower (info.industry.getD "")) ||
       substrOf (pyLower (info.industry.getD "")) (pyLower t)) = true) ∧
    ((rule_based_validation company_name info).title_score =
      if (title_match info).isSome then weight_title_match else 0) ∧
    ((title_match info).isSome ↔ ∃ sp ∈ info.speakers,
      ∃ t ∈ target_titles,
        substrOf (pyLower t) (pyLower (sp.title.getD "")) = true) ∧
    ((rule_based_validation company_name info).department_score =
      if (department_match info).isSome then weight_department_match
      else 0) ∧
    ((department_match info).isSome ↔ ∃ sp ∈ info.speakers,
      ∃ d ∈ target_departments,
        substrOf (pyLower d) (pyLower (sp.title.getD "")) = true) ∧
    ((rule_based_validation company_name info).speaker_bonus =
      if info.speakers.isEmpty then 0 else weight_speaker_bonus) ∧
    (∀ c, effective_size info = some c → preferred_company_size ≤ c →
      (rule_based_validation company_name info).size_score =
        weight_company_size) ∧
    (∀ c, effective_size info = some c → min_company_size ≤ c →
      c < preferred_company_size →
      (rule_based_validation company_name info).size_score =
        weight_company_size / 2) ∧
    (∀ c, effective_size info = some c → c < min_company_size →
      (rule_based_validation company_name info).size_score = 0) ∧
    (effective_size info = none →
      (rule_based_validation company_name info).size_score = 0) ∧
    (rule_based_validation "Acme Industrial" acme_info).score = 100 ∧
    (rule_based_validation "Acme Industrial" acme_info).fit_level =
      "High" ∧
    (rule_based_validation "Acme Industrial" acme_info).industry_score
      = 30 ∧
    (rule_based_validation "Acme Industrial" acme_info).title_score = 25 ∧
    (rule_based_validation "Acme Industrial" acme_info).department_score
      = 20 ∧
    (rule_based_validation "Acme Industrial" acme_info).size_score = 15 ∧
    (rule_based_validation "Acme Industrial" acme_info).speaker_bonus
      = 10 ∧
    (industry_match info = none → title_match info = none →
      department_match info = none →
      (∀ c, effective_size info = some c → c < min_company_size) →
      info.speakers = [] →
      (rule_based_validation company_name info).score = 0 ∧
      (rule_based_validation company_name info).reasoning =
        "Insufficient data for scoring" ∧
      (rule_based_validation company_name info).fit_level = "Low") := by
  refine ⟨rfl, rfl, ?_, rfl, ?_, rfl, ?_, rfl, ?_, ?_, ?_, ?_,
    by decide, by decide, by decide, by decide, by decide, by decide,
    by decide, ?_⟩
  · simp [industry_match, List.find?_isSome]
  · simp [title_match, List.find?_isSome, List.any_eq_true]
  · simp [department_match, List.findSome?_isSome_iff, List.find?_isSome]
  · intro c hc hpref
    show (size_component info).1 = weight_company_size
    unfold size_component
    rw [hc]
    simp only [size_component_of]
    rw [if_pos (ge_iff_le.mpr hpref)]
  · intro c hc hmin hpref
    show (size_component info).1 = weight_company_size / 2
    unfold size_component
    rw [hc]
    simp only [size_component_of]
    rw [if_neg (by simpa [ge_iff_le] using not_le.mpr hpref),
      if_pos (ge_iff_le.mpr hmin)]
  · intro c hc hlt
    show (size_component info).1 = 0
    have := size_component_zero info ?_
    · rw [this]
    · intro c2 hc2
      rw [hc] at hc2
      cases hc2
      exact hlt
  · intro hnone
    show (size_component info).1 = 0
    unfold size_component
    rw [hnone]
    rfl
  · intro h1 h2 h3 h4 h5
    have hsz := size_component_zero info h4
    refine ⟨?_, ?_, ?_⟩ <;>
      simp [rule_based_validation, h1, h2, h3, hsz, h5, fit_of,
        threshold_high, threshold_medium]

/-- C3 witness: an organization whose industry matches no target, with no
contacts and no size data, scores 0 with the insufficient-data
reasoning. -/
theorem icp_C3_rule_based_scoring_witness :
    (rule_based_validation "NoMatch Co" nomatch_info).score = 0 ∧
    (rule_based_validation "NoMatch Co" nomatch_info).reasoning =
      "Insufficient data for scoring" :=
  ⟨((icp_C3_rule_based_scoring "NoMatch Co"
        nomatch_info).2.2.2.2.2.2.2.2.2.2.2.2.2.2.2.2.2.2.2
      (by decide) (by decide) (by decide)
      (fun c hc => by
        simp [nomatch_info, effective_size, pyOrInt, truthyInt] at hc)
      (by decide)).1,
   ((icp_C3_rule_based_scoring "NoMatch Co"
        nomatch_info).2.2.2.2.2.2.2.2.2.2.2.2.2.2.2.2.2.2.2
      (by decide) (by decide) (by decide)
      (fun c hc => by
        simp [nomatch_info, effective_size, pyOrInt, truthyInt] at hc)
      (by decide)).2.1⟩

/-- Helper: the size component is 0, half weight, or full weight. -/
theorem size_component_fst_cases (info : CompanyInfo) :
    (size_component info).1 = 0 ∨
    (size_component info).1 = weight_company_size / 2 ∨
    (size_component info).1 = weight_company_size := by
  unfold size_component
  cases heff : effective_size info with
  | none => exact Or.inl rfl
  | some c =>
    simp only [size_component_of]
    split_ifs with h1 h2
    · exact Or.inr (Or.inr rfl)
    · exact Or.inr (Or.inl rfl)
    · exact Or.inl rfl

/-- Helper: the rule-based score, spelled out from the components. -/
theorem rule_based_score_eq (company_name : String) (info : CompanyInfo) :
    (rule_based_validation company_name info).score =
      (if (industry_match info).isSome then weight_industry_match else 0) +
      (if (title_match info).isSome then weight_title_match else 0) +
      (if (department_match info).isSome then weight_department_match
       else 0) +
      (size_component info).1 +
      (if info.speakers.isEmpty then 0 else weight_speaker_bonus) := rfl

/-- Helper: the rule-based score lies in `[0, 100]`. -/
theorem rule_based_score_bounds (company_name : String)
    (info : CompanyInfo) :
    0 ≤ (rule_based_validation company_name info).score ∧
    (rule_based_validation company_name info).score ≤ 100 := by
  have hsz := size_component_fst_cases info
  rw [rule_based_score_eq]
  constructor <;>
    (rcases hsz with h | h | h <;> rw [h] <;> split_ifs <;> decide)

/-- Helper: the rule-based result satisfies the score/fit invariant. -/
theorem rule_based_invariant (company_name : String) (info : CompanyInfo) :
    score_fit_invariant (rule_based_validation company_name info) :=
  ⟨(rule_based_score_bounds company_name info).1,
   (rule_based_score_bounds company_name info).2, rfl⟩

/-- Helper: with no industry component, the rule-based score is at most
the other four weights combined (70). -/
theorem rule_based_score_le_of_industry_zero (company_name : String)
    (info : CompanyInfo)
    (h : (rule_based_validation company_name info).industry_score = 0) :
    (rule_based_validation company_name info).score ≤ 70 := by
  have hz : ¬ (industry_match info).isSome := by
    intro hs
    have : (rule_based_validation company_name info).industry_score =
        weight_industry_match := by
      show (if (industry_match info).isSome then weight_industry_match
        else 0) = weight_industry_match
      rw [if_pos hs]
    rw [h] at this
    exact absurd this.symm (by decide)
  have hsz := size_component_fst_cases info
  rw [rule_based_score_eq, if_neg hz]
  rcases hsz with hs | hs | hs <;> rw [hs] <;> split_ifs <;> decide

/-- Helper: scores at or above 75 are High. -/
theorem fit_of_high {sc : Int} (h : 75 ≤ sc) : fit_of sc = "High" := by
  unfold fit_of threshold_high
  rw [if_pos (by omega)]

/-- Helper: scores in [50, 75) are Medium. -/
theorem fit_of_medium {sc : Int} (h1 : 50 ≤ sc) (h2 : sc < 75) :
    fit_of sc = "Medium" := by
  unfold fit_of threshold_high threshold_medium
  rw [if_neg (by omega), if_pos (by omega)]

/-- Helper: scores below 50 are Low. -/
theorem fit_of_low {sc : Int} (h : sc < 50) : fit_of sc = "Low" := by
  unfold fit_of threshold_high threshold_medium
  rw [if_neg (by omega), if_neg (by omega)]

/-- Helper: the enrichment update preserves the invariant for results
whose score cannot overflow (industry score 0 implies score at most 70,
as rule-based results guarantee). -/
theorem update_with_enrichment_invariant (r : ICPResult) (ind : String)
    (hinv : score_fit_invariant r) (hfin : r.final_score = none)
    (hbound : r.industry_score = 0 → r.score ≤ 70) :
    score_fit_invariant (update_with_enrichment r ind) := by
  obtain ⟨h0, h100, hfit⟩ := hinv
  have heff : effective_score r = r.score := by
    simp [effective_score, hfin]
  rw [heff] at hfit
  unfold update_with_enrichment
  dsimp only
  split_ifs with hf h75 h50 h75b h50b
  · have hle := hbound hf.2.1
    simp only [weight_industry_match, threshold_high, ge_iff_le] at h75
    refine ⟨by simp only [weight_industry_match]; omega,
      by simp only [weight_industry_match]; omega, ?_⟩
    dsimp only [effective_score]
    rw [hfin, Option.getD_none]
    exact (fit_of_high (by simp only [weight_industry_match]; omega)).symm
  · have hle := hbound hf.2.1
    simp only [weight_industry_match, threshold_high, threshold_medium,
      ge_iff_le, not_le] at h75 h50
    refine ⟨by simp only [weight_industry_match]; omega,
      by simp only [weight_industry_match]; omega, ?_⟩
    dsimp only [effective_score]
    rw [hfin, Option.getD_none]
    exact (fit_of_medium (by simp only [weight_industry_match]; omega)
      (by simp only [weight_industry_match]; omega)).symm
  · have hle := hbound hf.2.1
    simp only [weight_industry_match, threshold_high, threshold_medium,
      ge_iff_le, not_le] at h75 h50
    refine ⟨by simp only [weight_industry_match]; omega,
      by simp only [weight_industry_match]; omega, ?_⟩
    dsimp only [effective_score]
    rw [hfin, Option.getD_none]
    rw [hfit, fit_of_low (by omega),
      fit_of_low (by simp only [weight_industry_match]; omega)]
  · simp only [threshold_high, ge_iff_le] at h75b
    refine ⟨h0, h100, ?_⟩
    dsimp only [effective_score]
    rw [hfin, Option.getD_none]
    exact (fit_of_high (by omega)).symm
  · simp only [threshold_high, threshold_medium, ge_iff_le, not_le]
      at h75b h50b
    refine ⟨h0, h100, ?_⟩
    dsimp only [effective_score]
    rw [hfin, Option.getD_none]
    exact (fit_of_medium (by omega) (by omega)).symm
  · refine ⟨h0, h100, ?_⟩
    dsimp only [effective_score]
    rw [hfin, Option.getD_none]
    exact hfit

/-- Helper: the oracle-less dispute fallback preserves the invariant when
the original score and any suggested score are within `[0, 100]`. -/
theorem handle_dispute_fallback_invariant (original : ICPResult)
    (reason : String) (suggested : Option Int)
    (h0 : 0 ≤ original.score) (h100 : original.score ≤ 100)
    (hs : ∀ s, suggested = some s → 0 ≤ s ∧ s ≤ 100) :
    score_fit_invariant (handle_dispute none original reason suggested) := by
  unfold handle_dispute dispute_fallback
  cases suggested with
  | none =>
    exact ⟨h0, h100, rfl⟩
  | some s =>
    dsimp only
    split_ifs with hacc
    · obtain ⟨hs0, hs100⟩ := hs s rfl
      exact ⟨by simpa using hs0, by simpa using hs100, rfl⟩
    · exact ⟨h0, h100, rfl⟩

/-- C2 counterexample: an oracle validation response with score 60 and
fit level "Low" is stored verbatim — score 60 is Medium by the
thresholds, so fit_level is not the threshold function of the effective
score. -/
theorem icp_C2_counterexample :
    ¬ score_fit_invariant
      (validate_company (some (Except.ok oracle_inconsistent)) "Acme"
        {}) := by
  unfold score_fit_invariant
  decide

/-- C2 amended: every ICPResult produced by rule-based validation, by the
enrichment update of a rule-based result, or by oracle-less (or
oracle-failed) dispute resolution from an in-range original with an
in-range suggested score, satisfies 0 ≤ score ≤ 100 with fit_level equal
to the threshold function of the effective score (High iff ≥ 75, Medium
iff in [50, 75), Low otherwise); oracle-backed validation still keeps the
score within [0, 100] (out-of-range oracle scores are rejected by the
pydantic constructor and fall back to the rules) but stores the oracle's
fit_level verbatim, which need not match the thresholds. -/
theorem icp_C2_score_fit_invariant :
    (∀ sc : Int, (fit_of sc = "High" ↔ threshold_high ≤ sc) ∧
      (fit_of sc = "Medium" ↔ threshold_medium ≤ sc ∧ sc < threshold_high) ∧
      (fit_of sc = "Low" ↔ sc < threshold_medium)) ∧
    (∀ company_name info,
      score_fit_invariant (rule_based_validation company_name info)) ∧
    (∀ oracle company_name info,
      0 ≤ (validate_company oracle company_name info).score ∧
      (validate_company oracle company_name info).score ≤ 100) ∧
    (∀ company_name info ind,
      score_fit_invariant
        (update_with_enrichment (rule_based_validation company_name info)
          ind)) ∧
    (∀ original reason suggested, 0 ≤ original.score →
      original.score ≤ 100 →
      (∀ s, suggested = some s → 0 ≤ s ∧ s ≤ 100) →
      score_fit_invariant (handle_dispute none original reason suggested) ∧
      score_fit_invariant
        (handle_dispute (some (Except.error ())) original reason
          suggested)) := by
  refine ⟨?_, rule_based_invariant, ?_, ?_, ?_⟩
  · intro sc
    unfold fit_of
    refine ⟨?_, ?_, ?_⟩ <;> split_ifs <;>
      (simp_all [threshold_high, threshold_medium]; try omega)
  · intro oracle company_name info
    match oracle with
    | none => exact rule_based_score_bounds company_name info
    | some (Except.error _) => exact rule_based_score_bounds company_name info
    | some (Except.ok r) =>
      unfold validate_company
      dsimp only
      split_ifs with h
      · exact ⟨h.1, h.2⟩
      · exact rule_based_score_bounds company_name info
  · intro company_name info ind
    exact update_with_enrichment_invariant _ ind
      (rule_based_invariant company_name info) rfl
      (rule_based_score_le_of_industry_zero company_name info)
  · intro original reason suggested h0 h100 hs
    have hmain :=
      handle_dispute_fallback_invariant original reason suggested h0 h100 hs
    exact ⟨hmain, hmain⟩

/-- C2 witness: a dispute on an in-range original (score 40) with
suggested score 55 yields a result satisfying the score/fit invariant. -/
theorem icp_C2_score_fit_invariant_witness :
    score_fit_invariant (handle_dispute none dispute_orig40 "x" (some 55)) :=
  (icp_C2_score_fit_invariant.2.2.2.2 dispute_orig40 "x" (some 55)
    (by decide) (by decide)
    (fun s h => by cases h; exact ⟨by decide, by decide⟩)).1

/-- Helper: a key absent from every entry looks up to nothing. -/
theorem assocLookup_none_of_no_key {α : Type} (l : List (String × α))
    (k : String) (h : ∀ p ∈ l, p.1 ≠ k) : assocLookup l k = none := by
  induction l with
  | nil => rfl
  | cons p rest ih =>
    have hp : p.1 ≠ k := h p (by simp)
    simp only [assocLookup]
    rw [if_neg (by simpa using hp)]
    exact ih fun q hq => h q (by simp [hq])

/-- Helper: appending to a fresh key creates its entry at the end. -/
theorem addToEntry_no_key {α : Type} (l : List (String × List α))
    (k : String) (v : α) (h : ∀ p ∈ l, p.1 ≠ k) :
    addToEntry l k v = l ++ [(k, [v])] := by
  induction l with
  | nil => rfl
  | cons p rest ih =>
    have hp : p.1 ≠ k := h p (by simp)
    simp only [addToEntry]
    rw [if_neg (by simpa using hp)]
    simp [ih fun q hq => h q (by simp [hq])]

/-- Helper: appending to the key whose entry sits past a key-free prefix
appends to that entry. -/
theorem addToEntry_append_key {α : Type} (l : List (String × List α))
    (k : String) (vs : List α) (v : α) (h : ∀ p ∈ l, p.1 ≠ k) :
    addToEntry (l ++ [(k, vs)]) k v = l ++ [(k, vs ++ [v])] := by
  induction l with
  | nil => simp [addToEntry]
  | cons p rest ih =>
    have hp : p.1 ≠ k := h p (by simp)
    simp only [List.cons_append, addToEntry]
    rw [if_neg (by simpa using hp)]
    simp [ih fun q hq => h q (by simp [hq])]

/-- Helper: looking up the key past a key-free prefix. -/
theorem assocLookup_append_key {α : Type} (l : List (String × α))
    (k : String) (v : α) (h : ∀ p ∈ l, p.1 ≠ k) :
    assocLookup (l ++ [(k, v)]) k = some v := by
  induction l with
  | nil => simp [assocLookup]
  | cons p rest ih =>
    have hp : p.1 ≠ k := h p (by simp)
    simp only [List.cons_append, assocLookup]
    rw [if_neg (by simpa using hp)]
    exact ih fun q hq => h q (by simp [hq])

/-- Helper: erasing the key past a key-free prefix removes its entry. -/
theorem assocErase_append_key {α : Type} (l : List (String × α))
    (k : String) (v : α) (h : ∀ p ∈ l, p.1 ≠ k) :
    assocErase (l ++ [(k, v)]) k = l := by
  induction l with
  | nil => simp [assocErase]
  | cons p rest ih =>
    have hp : p.1 ≠ k := h p (by simp)
    simp only [List.cons_append, assocErase]
    rw [if_neg (by simpa using hp)]
    simp [ih fun q hq => h q (by simp [hq])]

/-- Helper: appending to a queue, seen through lookup. -/
theorem assocLookup_addToEntry_self {α : Type} (l : List (String × List α))
    (k : String) (v : α) :
    assocLookup (addToEntry l k v) k =
      some ((assocLookup l k).getD [] ++ [v]) := by
  induction l with
  | nil => simp [addToEntry, assocLookup]
  | cons p rest ih =>
    by_cases hp : p.1 = k
    · simp [addToEntry, assocLookup, hp]
    · simp only [addToEntry, assocLookup]
      rw [if_neg (by simpa using hp), if_neg (by simpa using hp)]
      simp only [assocLookup]
      rw [if_neg (by simpa using hp)]
      exact ih

/-- Helper: `send` never changes the subscriber table. -/
theorem send_subscribers (bus : MessageBus) (m : AgentMessage) :
    (send bus m).1.subscribers = bus.subscribers := by
  unfold send
  dsimp only
  split
  · rfl
  · split
    · split
      · rfl
      · rfl
    · rfl

/-- Helper: a non-broadcast send to an unregistered recipient returns no
response and only appends — to the history and to that recipient's
pending queue. -/
theorem send_unregistered (bus : MessageBus) (m : AgentMessage)
    (hall : m.recipient ≠ "ALL")
    (hsub : assocLookup bus.subscribers m.recipient = none) :
    send bus m =
      ({ bus with history := bus.history ++ [m]
                  pending := addToEntry bus.pending m.recipient m },
       none) := by
  unfold send
  dsimp only
  rw [if_neg (by simpa using hall), hsub]

/-- Helper: batched unregistered sends accumulate the recipient's queue
entry at the end of the pending table, in send order. -/
theorem send_all_unregistered_acc (r : String) (hall : r ≠ "ALL")
    (ms : List AgentMessage) :
    ∀ (bus : MessageBus) (l : List (String × List AgentMessage))
      (acc : List AgentMessage),
      assocLookup bus.subscribers r = none →
      (∀ m ∈ ms, m.recipient = r) →
      (∀ p ∈ l, p.1 ≠ r) →
      bus.pending = l ++ [(r, acc)] →
      (send_all bus ms).subscribers = bus.subscribers ∧
      (send_all bus ms).pending = l ++ [(r, acc ++ ms)] := by
  induction ms with
  | nil =>
    intro bus l acc hsub hrec hl hpend
    exact ⟨rfl, by simpa using hpend⟩
  | cons m rest ih =>
    intro bus l acc hsub hrec hl hpend
    have hm : m.recipient = r := hrec m (by simp)
    have hstep := send_unregistered bus m (by rw [hm]; exact hall)
      (by rw [hm]; exact hsub)
    have hpend2 : (send bus m).1.pending = l ++ [(r, acc ++ [m])] := by
      rw [hstep]
      simp only [hpend, hm]
      exact addToEntry_append_key l r acc m hl
    have hsub2 : assocLookup (send bus m).1.subscribers r = none := by
      rw [send_subscribers]
      exact hsub
    have := ih (send bus m).1 l (acc ++ [m]) hsub2
      (fun x hx => hrec x (by simp [hx])) hl hpend2
    refine ⟨?_, ?_⟩
    · show (send_all (send bus m).1 rest).subscribers = bus.subscribers
      rw [this.1, send_subscribers]
    · show (send_all (send bus m).1 rest).pending = l ++ [(r, acc ++ m :: rest)]
      rw [this.2]
      simp

/-- C8: sending to an unregistered recipient does not raise (`send` is
total), returns no response, and appends the message to the recipient's
pending queue and to history; after the recipient subscribes,
`get_pending_messages` returns exactly the messages sent while it was
unregistered, in send order, and atomically drains the queue, so an
immediately following call returns the empty list. -/
theorem bus_C8_pending_queue (bus : MessageBus) (r : String)
    (handler : Handler) (ms : List AgentMessage) (hall : r ≠ "ALL")
    (hsub : assocLookup bus.subscribers r = none)
    (hrec : ∀ m ∈ ms, m.recipient = r)
    (hpend : ∀ p ∈ bus.pending, p.1 ≠ r) :
    (∀ (b : MessageBus) (m : AgentMessage), m.recipient = r →
      assocLookup b.subscribers r = none →
      (send b m).2 = none ∧
      (send b m).1.history = b.history ++ [m] ∧
      pending_of (send b m).1 r = pending_of b r ++ [m]) ∧
    (get_pending_messages (subscribe (send_all bus ms) r handler) r).2 =
      ms ∧
    (get_pending_messages
      ((get_pending_messages (subscribe (send_all bus ms) r handler) r).1)
      r).2 = [] := by
  have hmain : (send_all bus ms).subscribers = bus.subscribers ∧
      ((ms = [] ∧ (send_all bus ms).pending = bus.pending) ∨
        (send_all bus ms).pending = bus.pending ++ [(r, ms)]) := by
    cases ms with
    | nil => exact ⟨rfl, Or.inl ⟨rfl, rfl⟩⟩
    | cons m rest =>
      have hm : m.recipient = r := hrec m (by simp)
      have hstep := send_unregistered bus m (by rw [hm]; exact hall)
        (by rw [hm]; exact hsub)
      have hpend2 : (send bus m).1.pending = bus.pending ++ [(r, [m])] := by
        rw [hstep]
        simp only [hm]
        exact addToEntry_no_key bus.pending r m hpend
      have hsub2 : assocLookup (send bus m).1.subscribers r = none := by
        rw [send_subscribers]
        exact hsub
      have hacc := send_all_unregistered_acc r hall rest (send bus m).1
        bus.pending [m] hsub2 (fun x hx => hrec x (by simp [hx])) hpend
        hpend2
      refine ⟨?_, Or.inr ?_⟩
      · show (send_all (send bus m).1 rest).subscribers = bus.subscribers
        rw [hacc.1, send_subscribers]
      · show (send_all (send bus m).1 rest).pending =
          bus.pending ++ [(r, m :: rest)]
        rw [hacc.2]
        simp
  refine ⟨?_, ?_, ?_⟩
  · intro b m hm hsubb
    have hstep := send_unregistered b m (by rw [hm]; exact hall)
      (by rw [hm]; exact hsubb)
    rw [hstep]
    refine ⟨rfl, rfl, ?_⟩
    simp only [pending_of, hm]
    rw [assocLookup_addToEntry_self]
    rfl
  · rcases hmain.2 with ⟨he, hp⟩ | hp
    · subst he
      show (assocLookup (send_all bus []).pending r).getD [] = []
      rw [hp, assocLookup_none_of_no_key bus.pending r hpend]
      rfl
    · show (assocLookup (send_all bus ms).pending r).getD [] = ms
      rw [hp, assocLookup_append_key bus.pending r ms hpend]
      rfl
  · rcases hmain.2 with ⟨he, hp⟩ | hp
    · subst he
      show (assocLookup (assocErase (send_all bus []).pending r) r).getD []
        = []
      rw [hp]
      have : assocErase bus.pending r = bus.pending ∨ True := Or.inr trivial
      rw [assocLookup_none_of_no_key _ r ?_]
      · rfl
      · intro p hp2
        have : p ∈ bus.pending := by
          revert hp2
          induction bus.pending with
          | nil => intro h2; exact absurd h2 (by simp [assocErase])
          | cons q rest ih2 =>
            intro h2
            by_cases hq : q.1 = r
            · simp only [assocErase] at h2
              rw [if_pos (by simpa using hq)] at h2
              exact List.mem_cons_of_mem q h2
            · simp only [assocErase] at h2
              rw [if_neg (by simpa using hq)] at h2
              rcases List.mem_cons.mp h2 with h3 | h3
              · exact h3 ▸ List.mem_cons_self q rest
              · exact List.mem_cons_of_mem q (ih2 h3)
        exact hpend p this
    · show (assocLookup (assocErase (send_all bus ms).pending r) r).getD []
        = []
      rw [hp, assocErase_append_key bus.pending r ms hpend,
        assocLookup_none_of_no_key bus.pending r hpend]
      rfl

/-- C8 witness: two messages sent to the not-yet-registered QualityAgent
on an empty bus are returned in send order by the first drain, and the
second drain returns nothing. -/
theorem bus_C8_pending_queue_witness :
    (get_pending_messages
      (subscribe (send_all {} [msg_q1, msg_q2]) "QualityAgent"
        (fun _ => none)) "QualityAgent").2 = [msg_q1, msg_q2] ∧
    (get_pending_messages
      ((get_pending_messages
        (subscribe (send_all {} [msg_q1, msg_q2]) "QualityAgent"
          (fun _ => none)) "QualityAgent").1) "QualityAgent").2 = [] :=
  ⟨(bus_C8_pending_queue {} "QualityAgent" (fun _ => none) [msg_q1, msg_q2]
      (by decide) rfl (by decide) (by simp)).2.1,
   (bus_C8_pending_queue {} "QualityAgent" (fun _ => none) [msg_q1, msg_q2]
      (by decide) rfl (by decide) (by simp)).2.2⟩

/-- Helper: in-place mutations never touch the context handle. -/
theorem apply_mutation_ctx (s : StateRef) (m : Mutation) :
    (apply_mutation s m).ctx = s.ctx := by
  cases m <;> rfl

/-- Helper: in-place mutations never touch the checkpoint table. -/
theorem apply_mutation_checkpoints (s : StateRef) (m : Mutation) :
    (apply_mutation s m).checkpoints = s.checkpoints := by
  cases m <;> rfl

/-- Helper: in-place mutations allocate nothing. -/
theorem apply_mutation_fresh (s : StateRef) (m : Mutation) :
    (apply_mutation s m).fresh = s.fresh := by
  cases m <;> rfl

/-- Helper: a mutation writes no icp cell other than the live one. -/
theorem apply_mutation_heapIcp_ne (s : StateRef) (m : Mutation) (a : Nat)
    (h : a ≠ s.ctx.icpAddr) :
    (apply_mutation s m).heapIcp a = s.heapIcp a := by
  cases m with
  | addResult r => simp [apply_mutation, writeCell, h]
  | addError e => rfl

/-- Helper: a mutation writes no error cell other than the live one. -/
theorem apply_mutation_heapErr_ne (s : StateRef) (m : Mutation) (a : Nat)
    (h : a ≠ s.ctx.errAddr) :
    (apply_mutation s m).heapErr a = s.heapErr a := by
  cases m with
  | addResult r => rfl
  | addError e => simp [apply_mutation, writeCell, h]

/-- Helper: a whole phase of mutations keeps the context handle. -/
theorem apply_mutations_ctx (ops : List Mutation) :
    ∀ s : StateRef, (apply_mutations s ops).ctx = s.ctx := by
  induction ops with
  | nil => intro s; rfl
  | cons m rest ih =>
    intro s
    show (apply_mutations (apply_mutation s m) rest).ctx = s.ctx
    rw [ih, apply_mutation_ctx]

/-- Helper: a whole phase keeps the checkpoint table. -/
theorem apply_mutations_checkpoints (ops : List Mutation) :
    ∀ s : StateRef, (apply_mutations s ops).checkpoints = s.checkpoints := by
  induction ops with
  | nil => intro s; rfl
  | cons m rest ih =>
    intro s
    show (apply_mutations (apply_mutation s m) rest).checkpoints =
      s.checkpoints
    rw [ih, apply_mutation_checkpoints]

/-- Helper: a whole phase allocates nothing. -/
theorem apply_mutations_fresh (ops : List Mutation) :
    ∀ s : StateRef, (apply_mutations s ops).fresh = s.fresh := by
  induction ops with
  | nil => intro s; rfl
  | cons m rest ih =>
    intro s
    show (apply_mutations (apply_mutation s m) rest).fresh = s.fresh
    rw [ih, apply_mutation_fresh]

/-- Helper: a whole phase leaves every non-live icp cell unchanged. -/
theorem apply_mutations_heapIcp_ne (ops : List Mutation) :
    ∀ (s : StateRef) (a : Nat), a ≠ s.ctx.icpAddr →
      (apply_mutations s ops).heapIcp a = s.heapIcp a := by
  induction ops with
  | nil => intro s a _; rfl
  | cons m rest ih =>
    intro s a h
    show (apply_mutations (apply_mutation s m) rest).heapIcp a = s.heapIcp a
    rw [ih _ a (by rw [apply_mutation_ctx]; exact h),
      apply_mutation_heapIcp_ne s m a h]

/-- Helper: a whole phase leaves every non-live error cell unchanged. -/
theorem apply_mutations_heapErr_ne (ops : List Mutation) :
    ∀ (s : StateRef) (a : Nat), a ≠ s.ctx.errAddr →
      (apply_mutations s ops).heapErr a = s.heapErr a := by
  induction ops with
  | nil => intro s a _; rfl
  | cons m rest ih =>
    intro s a h
    show (apply_mutations (apply_mutation s m) rest).heapErr a = s.heapErr a
    rw [ih _ a (by rw [apply_mutation_ctx]; exact h),
      apply_mutation_heapErr_ne s m a h]

/-- Helper: dict assignment then lookup of the same key. -/
theorem assocLookup_assocSet_self {α : Type} (l : List (String × α))
    (k : String) (v : α) : assocLookup (assocSet l k v) k = some v := by
  induction l with
  | nil => simp [assocSet, assocLookup]
  | cons p rest ih =>
    by_cases hp : p.1 = k
    · simp [assocSet, assocLookup, hp]
    · simp only [assocSet, assocLookup]
      rw [if_neg (by simpa using hp)]
      simp only [assocLookup]
      rw [if_neg (by simpa using hp)]
      exact ih

/-- C7: after creating a named checkpoint, mutating the live state (adding
results and errors in place), then restoring the checkpoint: the restore
succeeds, the restored live lists and status equal the checkpoint-time
values (mutations are undone), and the restored context shares no cell
address with the stored checkpoint or with the pre-restore live context —
so further in-place mutation of the restored state touches neither. -/
theorem context_C7_checkpoint_restore (s : StateRef) (name : String)
    (ops : List Mutation) (hwf : StateRefWF s) :
    (checkpoint_restore_run s name ops).2 = true ∧
    (checkpoint_restore_run s name ops).1.ctx.status = s.ctx.status ∧
    (checkpoint_restore_run s name ops).1.heapIcp
      (checkpoint_restore_run s name ops).1.ctx.icpAddr =
      s.heapIcp s.ctx.icpAddr ∧
    (checkpoint_restore_run s name ops).1.heapErr
      (checkpoint_restore_run s name ops).1.ctx.errAddr =
      s.heapErr s.ctx.errAddr ∧
    (checkpoint_restore_run s name ops).1.ctx.icpAddr ≠
      (apply_mutations (create_checkpoint_ref s name) ops).ctx.icpAddr ∧
    (checkpoint_restore_run s name ops).1.ctx.errAddr ≠
      (apply_mutations (create_checkpoint_ref s name) ops).ctx.errAddr ∧
    (∀ cp, assocLookup (checkpoint_restore_run s name ops).1.checkpoints
        name = some cp →
      (checkpoint_restore_run s name ops).1.ctx.icpAddr ≠ cp.icpAddr ∧
      (checkpoint_restore_run s name ops).1.ctx.errAddr ≠ cp.errAddr ∧
      ∀ mu,
        (apply_mutation (checkpoint_restore_run s name ops).1 mu).heapIcp
            cp.icpAddr =
          (checkpoint_restore_run s name ops).1.heapIcp cp.icpAddr ∧
        (apply_mutation (checkpoint_restore_run s name ops).1 mu).heapErr
            cp.errAddr =
          (checkpoint_restore_run s name ops).1.heapErr cp.errAddr) ∧
    (∀ mu,
      (apply_mutation (checkpoint_restore_run s name ops).1 mu).heapIcp
          (apply_mutations (create_checkpoint_ref s name) ops).ctx.icpAddr =
        (checkpoint_restore_run s name ops).1.heapIcp
          (apply_mutations (create_checkpoint_ref s name) ops).ctx.icpAddr ∧
      (apply_mutation (checkpoint_restore_run s name ops).1 mu).heapErr
          (apply_mutations (create_checkpoint_ref s name) ops).ctx.errAddr =
        (checkpoint_restore_run s name ops).1.heapErr
          (apply_mutations (create_checkpoint_ref s name) ops).ctx.errAddr)
    := by
  obtain ⟨hwf1, hwf2, hwf3⟩ := hwf
  have h2ctx : (apply_mutations (create_checkpoint_ref s name) ops).ctx =
      s.ctx := by
    rw [apply_mutations_ctx]
    rfl
  have h2chk :
      (apply_mutations (create_checkpoint_ref s name) ops).checkpoints =
      assocSet s.checkpoints name
        { icpAddr := s.fresh, errAddr := s.fresh + 1,
          status := s.ctx.status } := by
    rw [apply_mutations_checkpoints]
    rfl
  have h2fresh : (apply_mutations (create_checkpoint_ref s name) ops).fresh =
      s.fresh + 2 := by
    rw [apply_mutations_fresh]
    rfl
  have hlook :
      assocLookup
        (apply_mutations (create_checkpoint_ref s name) ops).checkpoints
        name =
      some { icpAddr := s.fresh, errAddr := s.fresh + 1,
             status := s.ctx.status } := by
    rw [h2chk]
    exact assocLookup_assocSet_self _ _ _
  have hrun : checkpoint_restore_run s name ops =
      (let s2 := apply_mutations (create_checkpoint_ref s name) ops
       let p := deep_copy_ref s2
         { icpAddr := s.fresh, errAddr := s.fresh + 1,
           status := s.ctx.status }
       ({ p.1 with ctx := p.2 }, true)) := by
    unfold checkpoint_restore_run restore_checkpoint_ref
    rw [hlook]
  have hicp2 :
      (apply_mutations (create_checkpoint_ref s name) ops).heapIcp s.fresh =
      s.heapIcp s.ctx.icpAddr := by
    rw [apply_mutations_heapIcp_ne ops _ s.fresh
      (by rw [show (create_checkpoint_ref s name).ctx = s.ctx from rfl]
          omega)]
    show writeCell s.heapIcp s.fresh (s.heapIcp s.ctx.icpAddr) s.fresh =
      s.heapIcp s.ctx.icpAddr
    simp [writeCell]
  have herr2 :
      (apply_mutations (create_checkpoint_ref s name) ops).heapErr
        (s.fresh + 1) = s.heapErr s.ctx.errAddr := by
    rw [apply_mutations_heapErr_ne ops _ (s.fresh + 1)
      (by rw [show (create_checkpoint_ref s name).ctx = s.ctx from rfl]
          omega)]
    show writeCell s.heapErr (s.fresh + 1) (s.heapErr s.ctx.errAddr)
      (s.fresh + 1) = s.heapErr s.ctx.errAddr
    simp [writeCell]
  rw [hrun]
  dsimp only [deep_copy_ref]
  rw [h2fresh, h2ctx]
  refine ⟨rfl, rfl, ?_, ?_, by omega, by omega, ?_, ?_⟩
  · show writeCell
      (apply_mutations (create_checkpoint_ref s name) ops).heapIcp
      (s.fresh + 2)
      ((apply_mutations (create_checkpoint_ref s name) ops).heapIcp s.fresh)
      (s.fresh + 2) = s.heapIcp s.ctx.icpAddr
    simp [writeCell, hicp2]
  · show writeCell
      (apply_mutations (create_checkpoint_ref s name) ops).heapErr
      (s.fresh + 2 + 1)
      ((apply_mutations (create_checkpoint_ref s name) ops).heapErr
        (s.fresh + 1))
      (s.fresh + 2 + 1) = s.heapErr s.ctx.errAddr
    simp [writeCell, herr2]
  · intro cp hcp
    rw [show (apply_mutations (create_checkpoint_ref s name)
        ops).checkpoints = _ from h2chk] at hcp
    rw [assocLookup_assocSet_self] at hcp
    cases hcp
    refine ⟨by dsimp only; omega, by dsimp only; omega, ?_⟩
    intro mu
    constructor
    · exact apply_mutation_heapIcp_ne _ mu s.fresh (by dsimp only; omega)
    · exact apply_mutation_heapErr_ne _ mu (s.fresh + 1)
        (by dsimp only; omega)
  · intro mu
    constructor
    · exact apply_mutation_heapIcp_ne _ mu s.ctx.icpAddr
        (by dsimp only; omega)
    · exact apply_mutation_heapErr_ne _ mu s.ctx.errAddr
        (by dsimp only; omega)

/-- C7 witness: on a fresh state (live cells at addresses 0 and 1, empty
lists), checkpoint "pre-validate", add one result, restore: the restore
reports success and the restored icp list is empty again. -/
theorem context_C7_checkpoint_restore_witness :
    (checkpoint_restore_run state_ref0 "pre-validate"
      [Mutation.addResult result_acme1]).2 = true ∧
    (checkpoint_restore_run state_ref0 "pre-validate"
      [Mutation.addResult result_acme1]).1.heapIcp
      (checkpoint_restore_run state_ref0 "pre-validate"
        [Mutation.addResult result_acme1]).1.ctx.icpAddr = [] :=
  ⟨(context_C7_checkpoint_restore state_ref0 "pre-validate"
      [Mutation.addResult result_acme1]
      (by unfold StateRefWF; simp [state_ref0])).1,
   ((context_C7_checkpoint_restore state_ref0 "pre-validate"
      [Mutation.addResult result_acme1]
      (by unfold StateRefWF; simp [state_ref0])).2.2.1).trans rfl⟩

end Ascendo
